import Mathlib

/-!
Verification of the kentik-mcp repository's two core components:

* the bounded-concurrency bulk interface fetch in
  `pkg/tools/interfaces.go` (`makeListAllInterfacesHandler`), and
* the polling long-running-operation client in
  `pkg/tools/ai_advisor.go` (`makeAIAdvisorHandler`).

The Go code is shallowly embedded: JSON payloads become an explicit value
type, `json.Unmarshal` into the handler's anonymous structs becomes a
total decoding function over that value type, the goroutine fan-out with
its buffered-channel semaphore becomes a small-step transition system,
and the sleep-then-poll loop becomes a structurally recursive function
instrumented with the number of polls issued.
-/

/-! ## JSON payload model

Payloads travelling between the Kentik client and the handlers are
`json.RawMessage` values in Go: raw bytes that may or may not be valid
JSON.  We model the bytes as either a parsed JSON value or a malformed
string.  Numbers are modelled as `Int`; no handler property depends on
numeric payloads. -/

inductive Json where
  | null : Json
  | bool (b : Bool) : Json
  | num (n : Int) : Json
  | str (s : String) : Json
  | arr (elems : List Json) : Json
  | obj (fields : List (String × Json)) : Json

/-- `json.RawMessage`: raw response bytes, either valid JSON or not. -/
inductive RawMessage where
  | valid (j : Json) : RawMessage
  | invalid (bytes : String) : RawMessage

/-- Fuel-bounded rendering of a JSON value, standing in for the output of
Go's `json.Indent` on valid JSON (the exact whitespace produced by the
standard library is immaterial to every property proved here; what
matters is that rendering valid JSON always succeeds). -/
def renderJson : Nat → Json → String
  | _, .null => "null"
  | _, .bool b => if b then "true" else "false"
  | _, .num n => toString n
  | _, .str s => "\x22" ++ s ++ "\x22"
  | 0, .arr _ => ""
  | 0, .obj _ => ""
  | fuel+1, .arr elems =>
      "[" ++ String.intercalate ", " (elems.map (renderJson fuel)) ++ "]"
  | fuel+1, .obj fields =>
      "\x7b" ++ String.intercalate ", "
        (fields.map (fun f => "\x22" ++ f.1 ++ "\x22: " ++ renderJson fuel f.2)) ++ "\x7d"

/-- Depth of a JSON value, used as rendering fuel. -/
def jsonDepth : Nat → Json → Nat
  | _, .null => 1
  | _, .bool _ => 1
  | _, .num _ => 1
  | _, .str _ => 1
  | 0, .arr _ => 1
  | 0, .obj _ => 1
  | fuel+1, .arr elems => 1 + (elems.map (jsonDepth fuel)).foldr max 0
  | fuel+1, .obj fields => 1 + (fields.map (fun f => jsonDepth fuel f.2)).foldr max 0

/-- `formatJSON` from `pkg/tools/devices.go`: pretty-print a raw message;
if `json.Indent` fails (the bytes are not valid JSON), fall back to
returning the raw bytes unchanged. -/
def formatJSON : RawMessage → String
  | .valid j => renderJson (jsonDepth 4096 j) j
  | .invalid bytes => bytes

/-! ## Go `json.Unmarshal` semantics for the poll-response struct

`makeAIAdvisorHandler` unmarshals each poll payload into an anonymous
struct with fields `id`, `status` (strings) and `messages` (a slice of
structs of six string fields).  Go's decoder leaves a field at its zero
value when the key is absent or its value is JSON `null`, ignores unknown
keys, matches the last occurrence of a duplicated key, and reports an
error when a present value has the wrong type or the payload is not valid
JSON.  (Go also matches keys case-insensitively; no property here depends
on that, and the gateway emits the exact tag names.) -/

structure PollMessage where
  id : String
  status : String
  prompt : String
  finalAnswer : String
  reasoning : String
  errorMessage : String
deriving DecidableEq, Repr

structure PollResponse where
  id : String
  status : String
  messages : List PollMessage
deriving DecidableEq, Repr

/-- Last occurrence of a key in a JSON object (Go: last duplicate wins). -/
def jsonField (fields : List (String × Json)) (key : String) : Option Json :=
  (fields.filter (fun f => f.1 == key)).getLast?.map (fun f => f.2)

/-- Decode a `string`-typed struct field: absent or `null` gives the zero
value, a string gives itself, anything else is an unmarshal type error. -/
def decodeStringField (fields : List (String × Json)) (key : String) :
    Except String String :=
  match jsonField fields key with
  | none => .ok ""
  | some .null => .ok ""
  | some (.str s) => .ok s
  | some _ => .error ("json: cannot unmarshal value into field " ++ key ++ " of type string")

/-- Decode one element of the `messages` slice. -/
def decodePollMessage : Json → Except String PollMessage
  | .null => .ok ⟨"", "", "", "", "", ""⟩
  | .obj fields => do
      let id ← decodeStringField fields "id"
      let status ← decodeStringField fields "status"
      let prompt ← decodeStringField fields "prompt"
      let finalAnswer ← decodeStringField fields "finalAnswer"
      let reasoning ← decodeStringField fields "reasoning"
      let errorMessage ← decodeStringField fields "errorMessage"
      .ok ⟨id, status, prompt, finalAnswer, reasoning, errorMessage⟩
  | _ => .error "json: cannot unmarshal value into message struct"

/-- Decode the `messages` field. -/
def decodeMessagesField (fields : List (String × Json)) :
    Except String (List PollMessage) :=
  match jsonField fields "messages" with
  | none => .ok []
  | some .null => .ok []
  | some (.arr elems) => elems.mapM decodePollMessage
  | some _ => .error "json: cannot unmarshal value into field messages of type slice"

/-- `json.Unmarshal(pollData, &pollResp)` from `makeAIAdvisorHandler`. -/
def unmarshalPollResponse : RawMessage → Except String PollResponse
  | .invalid _ => .error "invalid character in payload"
  | .valid .null => .ok ⟨"", "", []⟩
  | .valid (.obj fields) => do
      let id ← decodeStringField fields "id"
      let status ← decodeStringField fields "status"
      let messages ← decodeMessagesField fields
      .ok ⟨id, status, messages⟩
  | .valid _ => .error "json: cannot unmarshal value into poll response struct"

/-! ## The AI Advisor polling loop

`makeAIAdvisorHandler` submits a chat request, reads the session id
`resp.ID` from the submission response, and then runs

```
maxWait := 90 * time.Second
interval := 2 * time.Second
elapsed := time.Duration(0)
for elapsed < maxWait {
    time.Sleep(interval)
    elapsed += interval
    pollData, pollErr := client.V6(...)        // poll attempt
    ...                                        // unmarshal, switch on status
}
return timeout result
```

Every `return` site of the loop body becomes a constructor of
`PollOutcome`, carrying the data that the Go code interpolates into the
returned string.  The loop itself becomes `pollLoopAux`, structurally
recursive on a fuel argument; `runPoller` supplies `maxWait` seconds of
fuel, which is enough because each iteration advances `elapsed` by the
2-second interval, and the fuel-exhaustion branch returns the same
timeout result as the deadline check so the two functions agree
everywhere.  The second component of the result counts the poll attempts
(calls to `client.V6`) that were issued. -/

/-- One constructor per `return` site reachable from the polling loop of
`makeAIAdvisorHandler`. -/
inductive PollOutcome where
  | answer (sessionID finalAnswer : String) : PollOutcome
  | rawCompleted (body : String) : PollOutcome
  | failed (errMsg : String) : PollOutcome
  | pollError (errMsg : String) : PollOutcome
  | parseFailed (errMsg : String) : PollOutcome
  | timedOut (sessionID : String) : PollOutcome
deriving DecidableEq, Repr

/-- The `mcp.CallToolResult` produced by a handler: an error flag
(`NewToolResultError` vs `NewToolResultText`) and the result text. -/
structure ToolResult where
  isError : Bool
  text : String
deriving DecidableEq, Repr

/-- The exact tool result each outcome is rendered to in
`makeAIAdvisorHandler` (`1m30s` is Go's rendering of the 90-second
`maxWait` constant). -/
def renderPollOutcome : PollOutcome → ToolResult
  | .answer sessionID finalAnswer =>
      ⟨false, "**AI Advisor Response** (session: " ++ sessionID ++ ")\n\n" ++ finalAnswer⟩
  | .rawCompleted body => ⟨false, body⟩
  | .failed errMsg => ⟨true, "AI Advisor failed: " ++ errMsg⟩
  | .pollError errMsg => ⟨true, "Failed to poll AI Advisor: " ++ errMsg⟩
  | .parseFailed errMsg => ⟨true, "Failed to parse poll response: " ++ errMsg⟩
  | .timedOut sessionID =>
      ⟨true, "AI Advisor timed out after 1m30s. Session ID: " ++ sessionID ++
        " — you can retry by passing this session_id."⟩

/-- The error text computed in the `SESSION_STATUS_FAILED` arm: start from
"Unknown error" and replace it with the last message's `ErrorMessage`
when that list is non-empty and the field is non-empty. -/
def failedErrMsg (messages : List PollMessage) : String :=
  match messages.getLast? with
  | some lastMsg => if lastMsg.errorMessage != "" then lastMsg.errorMessage else "Unknown error"
  | none => "Unknown error"

/-- The polling loop of `makeAIAdvisorHandler`.  Arguments after the
configuration: remaining fuel, the `elapsed` accumulator, and the number
of polls already issued.  Returns the outcome and the total number of
polls issued. -/
def pollLoopAux (pollFn : Nat → Except String RawMessage) (sid : String)
    (interval deadline : Nat) : Nat → Nat → Nat → PollOutcome × Nat
  | 0, _, polls => (.timedOut sid, polls)
  | fuel+1, elapsed, polls =>
    if elapsed < deadline then
      match pollFn polls with
      | .error e => (.pollError e, polls + 1)
      | .ok pollData =>
        match unmarshalPollResponse pollData with
        | .error e => (.parseFailed e, polls + 1)
        | .ok pollResp =>
          if pollResp.status = "SESSION_STATUS_COMPLETED" then
            match pollResp.messages.getLast? with
            | some lastMsg => (.answer pollResp.id lastMsg.finalAnswer, polls + 1)
            | none => (.rawCompleted (formatJSON pollData), polls + 1)
          else if pollResp.status = "SESSION_STATUS_FAILED" then
            (.failed (failedErrMsg pollResp.messages), polls + 1)
          else
            pollLoopAux pollFn sid interval deadline fuel (elapsed + interval) (polls + 1)
    else (.timedOut sid, polls)

/-- `maxWait`, in seconds. -/
def maxWaitSeconds : Nat := 90

/-- The poll interval, in seconds. -/
def pollIntervalSeconds : Nat := 2

/-- The whole polling phase of one `makeAIAdvisorHandler` invocation:
`sid` is the session identifier obtained from the submission response
(`resp.ID`), `pollFn k` is the payload (or transport error) of the `k`-th
call to `client.V6` on the status endpoint. -/
def runPoller (pollFn : Nat → Except String RawMessage) (sid : String) :
    PollOutcome × Nat :=
  pollLoopAux pollFn sid pollIntervalSeconds maxWaitSeconds maxWaitSeconds 0 0

/-- A poll attempt that keeps the loop running: the transport call
succeeded, the payload unmarshalled, and the status matched neither
terminal arm of the `switch`. -/
def pollNonTerminal (attempt : Except String RawMessage) : Bool :=
  match attempt with
  | .error _ => false
  | .ok pollData =>
    match unmarshalPollResponse pollData with
    | .error _ => false
    | .ok pollResp =>
        pollResp.status != "SESSION_STATUS_COMPLETED" &&
        pollResp.status != "SESSION_STATUS_FAILED"

/-! ## The bulk all-interfaces fetch

`makeListAllInterfacesHandler` parses the device list, filters it to the
devices whose `device_status` is `"V"`, allocates a result slice of that
length, and launches one goroutine per active device.  Each goroutine
acquires a slot on a buffered channel of capacity 4, fetches the device's
interfaces, writes its `deviceInterfaceResult` at its own index of the
result slice, and releases its slot (via `defer`, so also when the fetch
failed).  The handler waits for all goroutines before marshalling the
slice.

The goroutine pool is embedded as a transition system.  A task is
`notStarted` (not yet scheduled, or blocked acquiring a slot), `running`
(holding a slot: the rate-limit sleep, the fetch and the result write all
happen while the slot is held), or `done` (result written, slot
released).  An `acquire` step is enabled only while fewer than `cap`
tasks hold slots; a `finish` step writes the task's result at its own
index and releases the slot in one transition (the write happens before
the deferred release in Go, and no other task reads the slice, so
merging them loses no observable behaviour).  The nondeterministic
choice of which enabled task steps models arbitrary scheduling and
completion order. -/

/-- `deviceEntry` from `pkg/tools/interfaces.go`. -/
structure DeviceEntry where
  id : String
  deviceName : String
  status : String
deriving DecidableEq, Repr

/-- `deviceInterfaceResult` from `pkg/tools/interfaces.go`.  The zero
value has `interfaces = none` (a nil `json.RawMessage`) and an empty
`error` string. -/
structure DeviceInterfaceResult where
  deviceID : String
  deviceName : String
  interfaces : Option RawMessage
  error : String

/-- The body of one goroutine after it acquired its slot: call
`client.V5` for the device's interfaces, then fill the result struct —
identifier and label always, and exactly one of the payload and the
error.  `fetch` stands for the Gateway collaborator. -/
def fetchResultFor (fetch : DeviceEntry → Except String RawMessage)
    (dev : DeviceEntry) : DeviceInterfaceResult :=
  match fetch dev with
  | .ok ifData => { deviceID := dev.id, deviceName := dev.deviceName,
                    interfaces := some ifData, error := "" }
  | .error ifErr => { deviceID := dev.id, deviceName := dev.deviceName,
                      interfaces := none, error := ifErr }

/-- The `activeDevices` pre-filter: keep devices whose `device_status`
equals `"V"`. -/
def activeDevices (devices : List DeviceEntry) : List DeviceEntry :=
  devices.filter (fun d => d.status == "V")

inductive TaskPhase where
  | notStarted : TaskPhase
  | running : TaskPhase
  | done : TaskPhase
deriving DecidableEq, Repr

/-- State of one in-progress bulk fetch: the phase of each task and the
result slice (`none` marks a slot not yet written). -/
structure BatchState where
  phases : List TaskPhase
  results : List (Option DeviceInterfaceResult)

/-- Number of semaphore slots currently held. -/
def slotsUsed (s : BatchState) : Nat :=
  s.phases.countP (fun p => p == TaskPhase.running)

/-- `results := make([]deviceInterfaceResult, len(activeDevices))` plus
one pending task per active device. -/
def initBatchState (n : Nat) : BatchState :=
  ⟨List.replicate n TaskPhase.notStarted, List.replicate n none⟩

/-- One scheduling step of the goroutine pool over `devices` (the already
filtered active list) with semaphore capacity `cap`. -/
inductive BatchStep (devices : List DeviceEntry)
    (fetch : DeviceEntry → Except String RawMessage) (cap : Nat) :
    BatchState → BatchState → Prop where
  | acquire (s : BatchState) (i : Nat) (hi : i < s.phases.length)
      (hphase : s.phases.get ⟨i, hi⟩ = TaskPhase.notStarted)
      (hslots : slotsUsed s < cap) :
      BatchStep devices fetch cap s ⟨s.phases.set i TaskPhase.running, s.results⟩
  | finish (s : BatchState) (i : Nat) (hi : i < s.phases.length)
      (hdev : i < devices.length)
      (hphase : s.phases.get ⟨i, hi⟩ = TaskPhase.running) :
      BatchStep devices fetch cap s
        ⟨s.phases.set i TaskPhase.done,
         s.results.set i (some (fetchResultFor fetch (devices.get ⟨i, hdev⟩)))⟩

/-- States reachable from the start of the fan-out. -/
def BatchReach (devices : List DeviceEntry)
    (fetch : DeviceEntry → Except String RawMessage) (cap : Nat)
    (s : BatchState) : Prop :=
  Relation.ReflTransGen (BatchStep devices fetch cap)
    (initBatchState devices.length) s

/-- All tasks have completed: the state at which `wg.Wait()` returns. -/
def AllDone (s : BatchState) : Prop :=
  ∀ i (hi : i < s.phases.length), s.phases.get ⟨i, hi⟩ = TaskPhase.done

/-- `maxConcurrency`: the capacity of the buffered channel used as a
semaphore, `make(chan struct ..., 4)`. -/
def maxConcurrency : Nat := 4

/-- Progress measure of a batch: pending tasks count twice (they must
acquire and then finish), running tasks once. -/
def batchMeasure (s : BatchState) : Nat :=
  2 * s.phases.countP (fun p => p == TaskPhase.notStarted) + slotsUsed s

/-! ## Concrete fixtures used by witnesses and counterexamples -/

def cDeviceA : DeviceEntry := ⟨"101", "edge-router-a", "V"⟩

def cDeviceB : DeviceEntry := ⟨"102", "edge-router-b", "V"⟩

/-- A decommissioned device, filtered out by the `"V"` pre-filter. -/
def cDeviceOff : DeviceEntry := ⟨"103", "edge-router-c", "D"⟩

def cAllDevices : List DeviceEntry := [cDeviceA, cDeviceOff, cDeviceB]

def cActive : List DeviceEntry := [cDeviceA, cDeviceB]

/-- A fetch in which device `"102"` fails at transport level and every
other device succeeds. -/
def cFetch : DeviceEntry → Except String RawMessage := fun d =>
  if d.id == "102" then .error "API error 500: backend unavailable"
  else .ok (.valid (.arr [.obj [("id", .str "9000")]]))

def cS1 : BatchState := ⟨[.running, .notStarted], [none, none]⟩

def cS2 : BatchState := ⟨[.running, .running], [none, none]⟩

def cS3 : BatchState :=
  ⟨[.running, .done], [none, some (fetchResultFor cFetch cDeviceB)]⟩

/-- The state in which both tasks completed, task 1 having finished
before task 0 (completion order is the reverse of input order). -/
def cFinal : BatchState :=
  ⟨[.done, .done],
   [some (fetchResultFor cFetch cDeviceA), some (fetchResultFor cFetch cDeviceB)]⟩

def cPendingRaw : RawMessage :=
  .valid (.obj [("id", .str "sess-1"), ("status", .str "SESSION_STATUS_RUNNING")])

def cCompletedRaw : RawMessage :=
  .valid (.obj [("id", .str "sess-1"), ("status", .str "SESSION_STATUS_COMPLETED"),
    ("messages", .arr [.obj [("finalAnswer", .str "All interfaces are healthy.")]])])

def cFailedRaw : RawMessage :=
  .valid (.obj [("id", .str "sess-1"), ("status", .str "SESSION_STATUS_FAILED"),
    ("messages", .arr [.obj [("errorMessage", .str "rate limited")]])])

/-- Scripted gateway: pending, pending, then completed. -/
def cScriptCompleted : Nat → Except String RawMessage := fun k =>
  if k < 2 then .ok cPendingRaw else .ok cCompletedRaw

/-- Scripted gateway: fails on the first poll. -/
def cScriptFailed : Nat → Except String RawMessage := fun _ => .ok cFailedRaw

/-- Scripted gateway that never reaches a terminal status. -/
def cScriptPending : Nat → Except String RawMessage := fun _ => .ok cPendingRaw

/-- Scripted gateway returning a payload that is valid JSON but does not
match the expected poll-response shape (a JSON array where an object is
expected): Go's `json.Unmarshal` rejects it. -/
def cBadPollScript : Nat → Except String RawMessage := fun _ => .ok (.valid (.arr []))

/-! ## Invariants of the fan-out transition system -/

theorem batchStep_phases_length {devices fetch cap} {s t : BatchState}
    (h : BatchStep devices fetch cap s t) : t.phases.length = s.phases.length := by
  cases h <;> simp

theorem batchStep_results_length {devices fetch cap} {s t : BatchState}
    (h : BatchStep devices fetch cap s t) : t.results.length = s.results.length := by
  cases h <;> simp

theorem batchReach_phases_length {devices fetch cap s}
    (h : BatchReach devices fetch cap s) : s.phases.length = devices.length := by
  induction h with
  | refl => simp [initBatchState]
  | tail _ hstep ih => rw [batchStep_phases_length hstep, ih]

theorem batchReach_results_length {devices fetch cap s}
    (h : BatchReach devices fetch cap s) : s.results.length = devices.length := by
  induction h with
  | refl => simp [initBatchState]
  | tail _ hstep ih => rw [batchStep_results_length hstep, ih]

/-- A `done` task's slot of the result slice holds exactly the result its
goroutine computed for its own device. -/
theorem batchReach_done_result {devices fetch cap s}
    (h : BatchReach devices fetch cap s) :
    ∀ i (hi : i < devices.length) (hp : i < s.phases.length)
      (hr : i < s.results.length),
      s.phases.get ⟨i, hp⟩ = TaskPhase.done →
      s.results.get ⟨i, hr⟩ = some (fetchResultFor fetch (devices.get ⟨i, hi⟩)) := by
  induction h with
  | refl =>
      intro i hi hp hr hdone
      simp [initBatchState] at hp hdone
  | tail hreach hstep ih =>
      intro i hi hp hr hdone
      cases hstep with
      | acquire j hj hphase hslots =>
          simp only [List.get_eq_getElem, List.length_set] at hp hdone ⊢
          rw [List.getElem_set] at hdone
          by_cases hij : j = i
          · simp [hij] at hdone
          · rw [if_neg hij] at hdone
            simpa using ih i hi (by simpa using hp) (by simpa using hr) (by simpa using hdone)
      | finish j hj hjdev hphase =>
          simp only [List.get_eq_getElem, List.length_set] at hp hr hdone ⊢
          rw [List.getElem_set] at hdone
          rw [List.getElem_set]
          by_cases hij : j = i
          · subst hij
            simp
          · rw [if_neg hij] at hdone ⊢
            simpa using ih i hi (by simpa using hp) (by simpa using hr) (by simpa using hdone)

/-- In every completed batch the result slice is exactly the input device
list mapped through the per-device fetch, in input order. -/
theorem batchReach_final_results {devices fetch cap s}
    (h : BatchReach devices fetch cap s) (hdone : AllDone s) :
    s.results = devices.map (fun d => some (fetchResultFor fetch d)) := by
  have hp := batchReach_phases_length h
  have hr := batchReach_results_length h
  apply List.ext_get
  · simp [hr]
  · intro n h1 h2
    have hn : n < devices.length := by simpa [hr] using h1
    have hget := batchReach_done_result h n hn (by omega) h1
      (hdone n (by omega))
    rw [hget]
    simp [List.get_eq_getElem, List.getElem_map]

/-- The semaphore invariant: each step preserves the slot bound. -/
theorem batchStep_slots_le {devices fetch cap} {s t : BatchState}
    (h : BatchStep devices fetch cap s t) (hs : slotsUsed s ≤ cap) :
    slotsUsed t ≤ cap := by
  cases h with
  | acquire i hi hphase hslots =>
      unfold slotsUsed at *
      simp only
      rw [List.countP_set _ _ _ _ hi]
      simp only [List.get_eq_getElem] at hphase
      rw [hphase]
      simp only [beq_iff_eq, reduceCtorEq, if_false, beq_self_eq_true, if_true]
      omega
  | finish i hi hidev hphase =>
      unfold slotsUsed at *
      simp only
      rw [List.countP_set _ _ _ _ hi]
      simp only [List.get_eq_getElem] at hphase
      rw [hphase]
      simp only [beq_self_eq_true, if_true, beq_iff_eq, reduceCtorEq, if_false]
      omega

/-- At every reachable state at most `cap` goroutines hold semaphore
slots. -/
theorem batchReach_slots_le {devices fetch cap s}
    (h : BatchReach devices fetch cap s) : slotsUsed s ≤ cap := by
  induction h with
  | refl =>
      have hz : (List.replicate devices.length TaskPhase.notStarted).countP
          (fun p => p == TaskPhase.running) = 0 := by
        rw [List.countP_eq_zero]
        intro a ha
        simp [List.eq_of_mem_replicate ha]
      simp [initBatchState, slotsUsed, hz]
  | tail _ hstep ih => exact batchStep_slots_le hstep ih

/-- From any reachable batch state the pool can run on to completion, so
the `wg.Wait()` barrier is always eventually released (for a positive
semaphore capacity). -/
theorem batch_progress {devices : List DeviceEntry}
    {fetch : DeviceEntry → Except String RawMessage} {cap : Nat} (hcap : 0 < cap) :
    ∀ s, BatchReach devices fetch cap s →
      ∃ sf, Relation.ReflTransGen (BatchStep devices fetch cap) s sf ∧ AllDone sf := by
  suffices h : ∀ m s, BatchReach devices fetch cap s → batchMeasure s ≤ m →
      ∃ sf, Relation.ReflTransGen (BatchStep devices fetch cap) s sf ∧ AllDone sf by
    intro s hs
    exact h (batchMeasure s) s hs le_rfl
  intro m
  induction m with
  | zero =>
      intro s hs hm
      refine ⟨s, Relation.ReflTransGen.refl, ?_⟩
      intro i hi
      have hz : s.phases.countP (fun p => p == TaskPhase.notStarted) = 0 ∧
          s.phases.countP (fun p => p == TaskPhase.running) = 0 := by
        unfold batchMeasure slotsUsed at hm
        omega
      have h1 := List.countP_eq_zero.mp hz.1 _ (List.get_mem s.phases i hi)
      have h2 := List.countP_eq_zero.mp hz.2 _ (List.get_mem s.phases i hi)
      simp only [List.get_eq_getElem, beq_iff_eq] at h1 h2 ⊢
      cases hph : s.phases[i] with
      | notStarted => exact absurd hph h1
      | running => exact absurd hph h2
      | done => rfl
  | succ m ih =>
      intro s hs hm
      by_cases hrun : ∃ i, ∃ hi : i < s.phases.length,
          s.phases.get ⟨i, hi⟩ = TaskPhase.running
      · obtain ⟨i, hi, hph⟩ := hrun
        have hdev : i < devices.length := by
          rw [← batchReach_phases_length hs]; exact hi
        have hstep : BatchStep devices fetch cap s
            ⟨s.phases.set i TaskPhase.done,
             s.results.set i (some (fetchResultFor fetch (devices.get ⟨i, hdev⟩)))⟩ :=
          BatchStep.finish s i hi hdev hph
        have hphe : s.phases.get ⟨i, hi⟩ = s.phases[i] := List.get_eq_getElem ..
        have hb : 0 < s.phases.countP (fun p => p == TaskPhase.running) := by
          rw [List.countP_pos_iff]
          exact ⟨s.phases.get ⟨i, hi⟩, List.get_mem s.phases i hi, by rw [hph]; simp⟩
        have hmt : batchMeasure ⟨s.phases.set i TaskPhase.done,
            s.results.set i (some (fetchResultFor fetch (devices.get ⟨i, hdev⟩)))⟩ ≤ m := by
          unfold batchMeasure slotsUsed at hm ⊢
          simp only
          rw [List.countP_set _ _ _ _ hi, List.countP_set _ _ _ _ hi, ← hphe, hph]
          simp only [beq_iff_eq, reduceCtorEq, if_false, beq_self_eq_true, if_true]
          omega
        obtain ⟨sf, hsteps, hdone⟩ := ih _ (hs.tail hstep) hmt
        exact ⟨sf, Relation.ReflTransGen.head hstep hsteps, hdone⟩
      · by_cases hnst : ∃ i, ∃ hi : i < s.phases.length,
            s.phases.get ⟨i, hi⟩ = TaskPhase.notStarted
        · obtain ⟨i, hi, hph⟩ := hnst
          have hz : s.phases.countP (fun p => p == TaskPhase.running) = 0 := by
            rw [List.countP_eq_zero]
            intro a ha
            obtain ⟨n, hn⟩ := List.mem_iff_get.mp ha
            intro hcon
            exact hrun ⟨n.1, n.2, by rw [hn]; simpa using hcon⟩
          have hslots : slotsUsed s < cap := by
            unfold slotsUsed
            rw [hz]
            exact hcap
          have hstep : BatchStep devices fetch cap s
              ⟨s.phases.set i TaskPhase.running, s.results⟩ :=
            BatchStep.acquire s i hi hph hslots
          have hphe : s.phases.get ⟨i, hi⟩ = s.phases[i] := List.get_eq_getElem ..
          have ha : 0 < s.phases.countP (fun p => p == TaskPhase.notStarted) := by
            rw [List.countP_pos_iff]
            exact ⟨s.phases.get ⟨i, hi⟩, List.get_mem s.phases i hi, by rw [hph]; simp⟩
          have hmt : batchMeasure ⟨s.phases.set i TaskPhase.running, s.results⟩ ≤ m := by
            unfold batchMeasure slotsUsed at hm ⊢
            simp only
            rw [List.countP_set _ _ _ _ hi, List.countP_set _ _ _ _ hi, ← hphe, hph]
            simp only [beq_iff_eq, reduceCtorEq, if_false, beq_self_eq_true, if_true]
            omega
          obtain ⟨sf, hsteps, hdone⟩ := ih _ (hs.tail hstep) hmt
          exact ⟨sf, Relation.ReflTransGen.head hstep hsteps, hdone⟩
        · refine ⟨s, Relation.ReflTransGen.refl, ?_⟩
          intro i hi
          cases hph : s.phases.get ⟨i, hi⟩ with
          | notStarted => exact absurd ⟨i, hi, hph⟩ hnst
          | running => exact absurd ⟨i, hi, hph⟩ hrun
          | done => rfl

/-! ## Concrete traces of the fan-out used by witnesses -/

theorem cReach2 : BatchReach cActive cFetch maxConcurrency cS2 := by
  have h0 : BatchStep cActive cFetch maxConcurrency (initBatchState cActive.length) cS1 :=
    BatchStep.acquire _ 0 (by decide) (by decide) (by decide)
  have h1 : BatchStep cActive cFetch maxConcurrency cS1 cS2 :=
    BatchStep.acquire _ 1 (by decide) (by decide) (by decide)
  exact Relation.ReflTransGen.tail (Relation.ReflTransGen.single h0) h1

theorem cReachFinal : BatchReach cActive cFetch maxConcurrency cFinal := by
  have h2 : BatchStep cActive cFetch maxConcurrency cS2 cS3 :=
    BatchStep.finish _ 1 (by decide) (by decide) (by decide)
  have h3 : BatchStep cActive cFetch maxConcurrency cS3 cFinal :=
    BatchStep.finish _ 0 (by decide) (by decide) (by decide)
  exact Relation.ReflTransGen.tail (Relation.ReflTransGen.tail cReach2 h2) h3

/-! ## Claim theorems for the bulk fetch -/

/-- C1: for every input sequence of work items, regardless of the
completion order of the individual fetches (i.e. in every reachable
completed state of the fan-out), the result slice equals the input device
list mapped through the per-device fetch: the result at position `i`
carries the identifier and label of the device at position `i`, because
each task writes its result at its original index. -/
theorem fetchAll_order_preservation
    (devices : List DeviceEntry) (fetch : DeviceEntry → Except String RawMessage)
    (cap : Nat) (s : BatchState)
    (h : BatchReach devices fetch cap s) (hdone : AllDone s) :
    s.results = devices.map (fun d => some (fetchResultFor fetch d)) :=
  batchReach_final_results h hdone

/-- Witness for C1: a two-device batch whose tasks complete in reverse
input order (task 1 finishes before task 0, and task 1's fetch fails)
still yields results positioned by input order. -/
theorem fetchAll_order_preservation_witness :
    cFinal.results = cActive.map (fun d => some (fetchResultFor cFetch d)) :=
  fetchAll_order_preservation cActive cFetch maxConcurrency cFinal cReachFinal
    (by unfold AllDone; decide)

/-- C2: in every completed state the output has exactly the same length
as the input, and every result has exactly one of payload and error set —
payload with empty error on success, no payload with non-empty error on
failure — provided the fetch collaborator reports failures with non-empty
messages (Go's `error.Error()` strings from the client are never empty). -/
theorem fetchAll_completeness
    (devices : List DeviceEntry) (fetch : DeviceEntry → Except String RawMessage)
    (cap : Nat) (s : BatchState)
    (h : BatchReach devices fetch cap s) (hdone : AllDone s)
    (herr : ∀ d ∈ devices, ∀ e, fetch d = .error e → e ≠ "") :
    s.results.length = devices.length ∧
    ∀ r ∈ s.results, ∃ res, r = some res ∧
      ((res.interfaces.isSome ∧ res.error = "") ∨
       (res.interfaces = none ∧ res.error ≠ "")) := by
  have hfin := batchReach_final_results h hdone
  constructor
  · rw [hfin]
    simp
  · intro r hr
    rw [hfin] at hr
    obtain ⟨d, hd, rfl⟩ := List.mem_map.mp hr
    refine ⟨fetchResultFor fetch d, rfl, ?_⟩
    cases hf : fetch d with
    | ok p =>
        left
        simp [fetchResultFor, hf]
    | error e =>
        right
        simp [fetchResultFor, hf]
        exact herr d hd e hf

/-- Witness for C2, at the same completed two-device batch. -/
theorem fetchAll_completeness_witness :
    cFinal.results.length = cActive.length ∧
    ∀ r ∈ cFinal.results, ∃ res, r = some res ∧
      ((res.interfaces.isSome ∧ res.error = "") ∨
       (res.interfaces = none ∧ res.error ≠ "")) :=
  fetchAll_completeness cActive cFetch maxConcurrency cFinal cReachFinal
    (by unfold AllDone; decide)
    (by
      intro d hd e he
      fin_cases hd
      · simp [cFetch, cDeviceA] at he
      · simp [cFetch, cDeviceB] at he
        subst he
        decide)

/-- C3: at every instant of every run of the fan-out, at most
`maxConcurrency` (4 in the implementation) tasks hold semaphore slots —
for every fetch collaborator, including failing ones, since `finish`
releases the slot for both outcomes.  `acquire` is only enabled below the
cap, which is how tasks beyond the cap block until a slot frees. -/
theorem fetchAll_concurrency_bound
    (devices : List DeviceEntry) (fetch : DeviceEntry → Except String RawMessage)
    (s : BatchState) (h : BatchReach devices fetch maxConcurrency s) :
    slotsUsed s ≤ maxConcurrency ∧ maxConcurrency = 4 :=
  ⟨batchReach_slots_le h, rfl⟩

/-- Witness for C3: a reachable mid-flight state with both tasks holding
slots respects the cap. -/
theorem fetchAll_concurrency_bound_witness :
    slotsUsed cS2 ≤ maxConcurrency ∧ maxConcurrency = 4 :=
  fetchAll_concurrency_bound cActive cFetch cS2 cReach2

/-- C4: if the fetch for item `i` fails and all other items succeed, then
in every completed state only the result at position `i` carries an error
and every other position carries a payload; moreover from any reachable
state the batch can always run to completion (no failure aborts, cancels
or wedges the pool), each item being fetched exactly once by its own
task. -/
theorem fetchAll_partial_failure_isolation
    (devices : List DeviceEntry) (fetch : DeviceEntry → Except String RawMessage)
    (cap : Nat) (i : Nat) (hi : i < devices.length) (e : String)
    (hcap : 0 < cap)
    (hfail : fetch (devices.get ⟨i, hi⟩) = .error e)
    (hothers : ∀ j (hj : j < devices.length), j ≠ i →
      ∃ p, fetch (devices.get ⟨j, hj⟩) = .ok p) :
    (∀ s, BatchReach devices fetch cap s →
      ∃ sf, Relation.ReflTransGen (BatchStep devices fetch cap) s sf ∧ AllDone sf) ∧
    (∀ s, BatchReach devices fetch cap s → AllDone s →
      s.results[i]? = some (some ⟨(devices.get ⟨i, hi⟩).id,
        (devices.get ⟨i, hi⟩).deviceName, none, e⟩) ∧
      ∀ j (hj : j < devices.length), j ≠ i →
        ∃ p, fetch (devices.get ⟨j, hj⟩) = .ok p ∧
          s.results[j]? = some (some ⟨(devices.get ⟨j, hj⟩).id,
            (devices.get ⟨j, hj⟩).deviceName, some p, ""⟩)) := by
  constructor
  · exact batch_progress hcap
  · intro s hs hdone
    have hfin := batchReach_final_results hs hdone
    constructor
    · rw [hfin, List.getElem?_map, List.getElem?_eq_getElem hi]
      simp only [List.get_eq_getElem] at hfail
      unfold fetchResultFor
      dsimp only [Option.map]
      rw [hfail]
      rfl
    · intro j hj hne
      obtain ⟨p, hp⟩ := hothers j hj hne
      refine ⟨p, hp, ?_⟩
      rw [hfin, List.getElem?_map, List.getElem?_eq_getElem hj]
      simp only [List.get_eq_getElem] at hp
      unfold fetchResultFor
      dsimp only [Option.map]
      rw [hp]
      rfl

/-- Witness for C4: in the two-device batch, device `"102"` (position 1)
fails and device `"101"` (position 0) succeeds; the batch still completes
and only position 1 carries an error. -/
theorem fetchAll_partial_failure_isolation_witness :
    (∃ sf, Relation.ReflTransGen (BatchStep cActive cFetch maxConcurrency)
        cFinal sf ∧ AllDone sf) ∧
    cFinal.results[1]? = some (some ⟨"102", "edge-router-b", none,
      "API error 500: backend unavailable"⟩) := by
  have h := fetchAll_partial_failure_isolation cActive cFetch maxConcurrency 1
    (by decide) "API error 500: backend unavailable" (by decide) rfl
    (by
      intro j hj hne
      have hj2 : j < 2 := hj
      interval_cases j
      · exact ⟨.valid (.arr [.obj [("id", .str "9000")]]), rfl⟩
      · exact absurd rfl hne)
  exact ⟨h.1 cFinal cReachFinal, (h.2 cFinal cReachFinal (by unfold AllDone; decide)).1⟩

/-- C10: the handler fans out over exactly the `"V"`-status devices, in
input order: in every completed state the result slice is the `"V"`
filter of the gateway's device list mapped through the fetch, its length
is the number of active devices, and devices of any other status
contribute no task and no entry at all. -/
theorem listAllInterfaces_active_filter
    (allDevices : List DeviceEntry) (fetch : DeviceEntry → Except String RawMessage)
    (cap : Nat) (s : BatchState)
    (h : BatchReach (activeDevices allDevices) fetch cap s) (hdone : AllDone s) :
    s.results = (allDevices.filter (fun d => d.status == "V")).map
        (fun d => some (fetchResultFor fetch d)) ∧
    s.results.length = allDevices.countP (fun d => d.status == "V") ∧
    ∀ d ∈ allDevices, d.status ≠ "V" → d ∉ activeDevices allDevices := by
  have hfin := batchReach_final_results h hdone
  refine ⟨hfin, ?_, ?_⟩
  · rw [hfin]
    simp [activeDevices, List.countP_eq_length_filter]
  · intro d hd hne hmem
    have hv := List.of_mem_filter hmem
    simp only [beq_iff_eq] at hv
    exact hne hv

/-- Witness for C10: a three-device gateway list with one decommissioned
device yields a two-entry output over the two active devices only. -/
theorem listAllInterfaces_active_filter_witness :
    cFinal.results = (cAllDevices.filter (fun d => d.status == "V")).map
        (fun d => some (fetchResultFor cFetch d)) ∧
    cFinal.results.length = cAllDevices.countP (fun d => d.status == "V") ∧
    ∀ d ∈ cAllDevices, d.status ≠ "V" → d ∉ activeDevices cAllDevices :=
  listAllInterfaces_active_filter cAllDevices cFetch maxConcurrency cFinal
    cReachFinal (by unfold AllDone; decide)

/-! ## Behaviour of the polling loop -/

/-- Skipping `j` consecutive non-terminal polls advances the loop by `j`
iterations: one unit of fuel and one interval of elapsed time per poll. -/
theorem pollLoopAux_skip (pollFn : Nat → Except String RawMessage) (sid : String)
    (interval deadline : Nat) (j : Nat) :
    ∀ fuel elapsed polls,
      (∀ k, k < j → elapsed + k * interval < deadline) →
      j ≤ fuel →
      (∀ k, k < j → pollNonTerminal (pollFn (polls + k)) = true) →
      pollLoopAux pollFn sid interval deadline fuel elapsed polls =
        pollLoopAux pollFn sid interval deadline (fuel - j)
          (elapsed + j * interval) (polls + j) := by
  induction j with
  | zero => intro fuel elapsed polls _ _ _; simp
  | succ j ihj =>
      intro fuel elapsed polls hg hf hnt
      obtain ⟨f, rfl⟩ : ∃ f, fuel = f + 1 := ⟨fuel - 1, by omega⟩
      have he : elapsed < deadline := by simpa using hg 0 (by omega)
      have hnt0 := hnt 0 (by omega)
      rw [Nat.add_zero] at hnt0
      unfold pollNonTerminal at hnt0
      rw [pollLoopAux, if_pos he]
      cases hp : pollFn polls with
      | error e => rw [hp] at hnt0; simp at hnt0
      | ok pollData =>
          rw [hp] at hnt0
          dsimp only at hnt0
          dsimp only
          cases hu : unmarshalPollResponse pollData with
          | error e => rw [hu] at hnt0; simp at hnt0
          | ok resp =>
              rw [hu] at hnt0
              simp only [Bool.and_eq_true, bne_iff_ne, ne_eq] at hnt0
              dsimp only
              rw [if_neg hnt0.1, if_neg hnt0.2]
              have harith1 : f + 1 - (j + 1) = f - j := by omega
              have harith2 : elapsed + (j + 1) * interval =
                  elapsed + interval + j * interval := by ring
              have harith3 : polls + (j + 1) = polls + 1 + j := by omega
              rw [harith1, harith2, harith3]
              apply ihj
              · intro k hk
                have h := hg (k + 1) (by omega)
                have hs : (k + 1) * interval = k * interval + interval :=
                  Nat.succ_mul k interval
                rw [hs] at h
                linarith
              · omega
              · intro k hk
                have h := hnt (k + 1) (by omega)
                have hpk : polls + (k + 1) = polls + 1 + k := by omega
                rwa [hpk] at h

/-- After `j` non-terminal polls (`j ≤ 45`) the loop has issued `j` polls,
accumulated `2j` seconds and consumed `j` units of fuel. -/
theorem runPoller_eq_after (pollFn : Nat → Except String RawMessage) (sid : String)
    (j : Nat) (hj : j ≤ 45)
    (hnt : ∀ k, k < j → pollNonTerminal (pollFn k) = true) :
    runPoller pollFn sid =
      pollLoopAux pollFn sid pollIntervalSeconds maxWaitSeconds
        (maxWaitSeconds - j) (j * pollIntervalSeconds) j := by
  unfold runPoller
  have h := pollLoopAux_skip pollFn sid pollIntervalSeconds maxWaitSeconds j
    maxWaitSeconds 0 0 ?_ ?_ ?_
  · simpa using h
  · intro k hk
    show 0 + k * 2 < 90
    omega
  · show j ≤ 90
    omega
  · intro k hk
    simpa using hnt k hk

/-- Exit accounting for the loop: either no poll was issued after entry,
or the last poll was issued while the accumulated elapsed time was still
below the deadline. -/
theorem pollLoopAux_polls_bound (pollFn : Nat → Except String RawMessage)
    (sid : String) (interval deadline : Nat) :
    ∀ fuel elapsed polls out c,
      pollLoopAux pollFn sid interval deadline fuel elapsed polls = (out, c) →
      c = polls ∨ (polls < c ∧ elapsed + (c - polls - 1) * interval < deadline) := by
  intro fuel
  induction fuel with
  | zero =>
      intro elapsed polls out c h
      rw [pollLoopAux] at h
      cases h
      exact Or.inl rfl
  | succ f ih =>
      intro elapsed polls out c h
      rw [pollLoopAux] at h
      by_cases he : elapsed < deadline
      · rw [if_pos he] at h
        have hone : ∀ out0 : PollOutcome, (out0, polls + 1) = (out, c) →
            c = polls ∨ (polls < c ∧ elapsed + (c - polls - 1) * interval < deadline) := by
          intro out0 h0
          cases h0
          right
          refine ⟨by omega, ?_⟩
          have hz : polls + 1 - polls - 1 = 0 := by omega
          rw [hz]
          simpa using he
        cases hp : pollFn polls with
        | error e => rw [hp] at h; exact hone _ h
        | ok pollData =>
            rw [hp] at h
            dsimp only at h
            cases hu : unmarshalPollResponse pollData with
            | error e => rw [hu] at h; exact hone _ h
            | ok resp =>
                rw [hu] at h
                dsimp only at h
                by_cases hc : resp.status = "SESSION_STATUS_COMPLETED"
                · rw [if_pos hc] at h
                  cases hl : resp.messages.getLast? with
                  | some lastMsg => rw [hl] at h; exact hone _ h
                  | none => rw [hl] at h; exact hone _ h
                · rw [if_neg hc] at h
                  by_cases hfd : resp.status = "SESSION_STATUS_FAILED"
                  · rw [if_pos hfd] at h
                    exact hone _ h
                  · rw [if_neg hfd] at h
                    rcases ih _ _ _ _ h with h1 | ⟨h1, h2⟩
                    · subst h1
                      right
                      refine ⟨by omega, ?_⟩
                      have hz : polls + 1 - polls - 1 = 0 := by omega
                      rw [hz]
                      simpa using he
                    · right
                      refine ⟨by omega, ?_⟩
                      have hd : c - polls - 1 = (c - (polls + 1) - 1) + 1 := by omega
                      rw [hd, Nat.succ_mul]
                      linarith
      · rw [if_neg he] at h
        cases h
        exact Or.inl rfl

/-! ## Claim theorems for the poller -/

/-- C5: as soon as a poll response carries the completed terminal status
(after any number of non-terminal polls that fit in the deadline), the
poller stops immediately — exactly `j + 1` polls are issued — and returns
the answer built from the last message's `finalAnswer` field, or the raw
payload rendered through `formatJSON` when the completed response carries
no messages.  Instantiated at a pending, pending, completed script this
gives exactly 3 polls. -/
theorem poller_completed_detection
    (pollFn : Nat → Except String RawMessage) (sid : String) (j : Nat)
    (pollData : RawMessage) (resp : PollResponse)
    (hnt : ∀ k, k < j → pollNonTerminal (pollFn k) = true)
    (hj : j * pollIntervalSeconds < maxWaitSeconds)
    (hpoll : pollFn j = .ok pollData)
    (hu : unmarshalPollResponse pollData = .ok resp)
    (hst : resp.status = "SESSION_STATUS_COMPLETED") :
    runPoller pollFn sid =
      ((match resp.messages.getLast? with
        | some lastMsg => PollOutcome.answer resp.id lastMsg.finalAnswer
        | none => PollOutcome.rawCompleted (formatJSON pollData)), j + 1) := by
  have hj2 : j * 2 < 90 := hj
  rw [runPoller_eq_after pollFn sid j (by omega) hnt]
  obtain ⟨f, hf⟩ : ∃ f, maxWaitSeconds - j = f + 1 := by
    refine ⟨90 - j - 1, ?_⟩
    show 90 - j = 90 - j - 1 + 1
    omega
  rw [hf, pollLoopAux, if_pos hj, hpoll]
  dsimp only
  rw [hu]
  dsimp only
  rw [hst, if_pos rfl]
  cases resp.messages.getLast? with
  | some lastMsg => rfl
  | none => rfl

/-- Witness for C5: the scripted sequence pending, pending, completed is
answered after exactly 3 polls. -/
theorem poller_completed_detection_witness :
    runPoller cScriptCompleted "sess-sub" =
      (PollOutcome.answer "sess-1" "All interfaces are healthy.", 3) :=
  poller_completed_detection cScriptCompleted "sess-sub" 2 cCompletedRaw
    ⟨"sess-1", "SESSION_STATUS_COMPLETED",
      [⟨"", "", "", "All interfaces are healthy.", "", ""⟩]⟩
    (by decide) (by decide) rfl rfl rfl

/-- C6: as soon as a poll response carries the failed terminal status the
poller stops immediately and returns a failure whose error text is the
last message's `errorMessage` when that field is present and non-empty,
and the generic "Unknown error" string otherwise. -/
theorem poller_failed_path
    (pollFn : Nat → Except String RawMessage) (sid : String) (j : Nat)
    (pollData : RawMessage) (resp : PollResponse)
    (hnt : ∀ k, k < j → pollNonTerminal (pollFn k) = true)
    (hj : j * pollIntervalSeconds < maxWaitSeconds)
    (hpoll : pollFn j = .ok pollData)
    (hu : unmarshalPollResponse pollData = .ok resp)
    (hst : resp.status = "SESSION_STATUS_FAILED") :
    runPoller pollFn sid =
      (PollOutcome.failed
        (match resp.messages.getLast? with
         | some lastMsg =>
             if lastMsg.errorMessage = "" then "Unknown error" else lastMsg.errorMessage
         | none => "Unknown error"), j + 1) := by
  have hj2 : j * 2 < 90 := hj
  rw [runPoller_eq_after pollFn sid j (by omega) hnt]
  obtain ⟨f, hf⟩ : ∃ f, maxWaitSeconds - j = f + 1 := by
    refine ⟨90 - j - 1, ?_⟩
    show 90 - j = 90 - j - 1 + 1
    omega
  rw [hf, pollLoopAux, if_pos hj, hpoll]
  dsimp only
  rw [hu]
  dsimp only
  rw [hst]
  rw [if_neg (by decide), if_pos rfl]
  have hmsg : failedErrMsg resp.messages =
      match resp.messages.getLast? with
      | some lastMsg =>
          if lastMsg.errorMessage = "" then "Unknown error" else lastMsg.errorMessage
      | none => "Unknown error" := by
    unfold failedErrMsg
    cases resp.messages.getLast? with
    | none => rfl
    | some lastMsg =>
        by_cases hem : lastMsg.errorMessage = "" <;> simp [hem]
  rw [hmsg]

/-- Witness for C6: a first poll already failed with message error text
"rate limited" yields that exact failure text after one poll. -/
theorem poller_failed_path_witness :
    runPoller cScriptFailed "sess-sub" = (PollOutcome.failed "rate limited", 1) :=
  poller_failed_path cScriptFailed "sess-sub" 0 cFailedRaw
    ⟨"sess-1", "SESSION_STATUS_FAILED", [⟨"", "", "", "", "", "rate limited"⟩]⟩
    (by intro k hk; exact absurd hk (Nat.not_lt_zero k)) (by decide) rfl rfl rfl

/-- C7: when all 45 polls that fit in the deadline observe non-terminal
statuses, the poller returns the timeout outcome — a constructor distinct
from the failure outcome — carrying the session identifier obtained at
submission, which a caller can pass into a fresh invocation to resume. -/
theorem poller_timeout_token
    (pollFn : Nat → Except String RawMessage) (sid : String)
    (hnt : ∀ k, k < 45 → pollNonTerminal (pollFn k) = true) :
    (runPoller pollFn sid).1 = PollOutcome.timedOut sid ∧
    (∀ errMsg, PollOutcome.timedOut sid ≠ PollOutcome.failed errMsg) := by
  constructor
  · rw [runPoller_eq_after pollFn sid 45 le_rfl hnt]
    rfl
  · intro errMsg hcon
    cases hcon

/-- Witness for C7: the always-pending script times out carrying the
submission session id. -/
theorem poller_timeout_token_witness :
    (runPoller cScriptPending "sess-sub").1 = PollOutcome.timedOut "sess-sub" ∧
    (∀ errMsg, PollOutcome.timedOut "sess-sub" ≠ PollOutcome.failed errMsg) :=
  poller_timeout_token cScriptPending "sess-sub" (by decide)

/-- C8: for every gateway behaviour the loop issues at most
`maxWait / interval = 45` polls, and the accumulated wait — one interval
slept before each poll — never exceeds the 90-second deadline. -/
theorem poller_deadline_bound
    (pollFn : Nat → Except String RawMessage) (sid : String) :
    (runPoller pollFn sid).2 ≤ maxWaitSeconds / pollIntervalSeconds ∧
    (runPoller pollFn sid).2 * pollIntervalSeconds ≤ maxWaitSeconds := by
  have h := pollLoopAux_polls_bound pollFn sid pollIntervalSeconds maxWaitSeconds
    maxWaitSeconds 0 0 (runPoller pollFn sid).1 (runPoller pollFn sid).2
    Prod.mk.eta.symm
  have h45 : (runPoller pollFn sid).2 ≤ 45 := by
    rcases h with h | ⟨h1, h2⟩
    · omega
    · have e1 : pollIntervalSeconds = 2 := rfl
      have e2 : maxWaitSeconds = 90 := rfl
      rw [e1, e2] at h2
      omega
  constructor
  · exact h45
  · show (runPoller pollFn sid).2 * 2 ≤ 90
    omega

/-- C9 counterexample: the poll payload `[]` is valid JSON that does not
match the expected shape; the invocation returns the hard parse-error
result, not the raw-payload fallback the claim promises. -/
theorem parse_error_hard_failure_counterexample :
    (runPoller cBadPollScript "sess-sub").1 =
      PollOutcome.parseFailed "json: cannot unmarshal value into poll response struct" ∧
    (renderPollOutcome (runPoller cBadPollScript "sess-sub").1).isError = true ∧
    (runPoller cBadPollScript "sess-sub").1 ≠
      PollOutcome.rawCompleted (formatJSON (RawMessage.valid (Json.arr []))) :=
  ⟨rfl, rfl, by decide⟩

/-- C9 (amended): the graceful raw-payload fallback applies to rendering —
`formatJSON` returns bytes that are not valid JSON unchanged instead of
failing — and to a completed response without messages; but a poll
payload that fails to unmarshal into the expected shape makes the
invocation return a parse-error result. -/
theorem parse_error_graceful_fallback_amended
    (pollFn : Nat → Except String RawMessage) (sid : String) :
    (∀ bytes, formatJSON (.invalid bytes) = bytes) ∧
    (∀ j pollData e,
      (∀ k, k < j → pollNonTerminal (pollFn k) = true) →
      j * pollIntervalSeconds < maxWaitSeconds →
      pollFn j = .ok pollData →
      unmarshalPollResponse pollData = .error e →
      runPoller pollFn sid = (PollOutcome.parseFailed e, j + 1) ∧
      (renderPollOutcome (PollOutcome.parseFailed e)).isError = true) := by
  constructor
  · intro bytes
    rfl
  · intro j pollData e hnt hj hpoll hu
    refine ⟨?_, rfl⟩
    have hj2 : j * 2 < 90 := hj
    rw [runPoller_eq_after pollFn sid j (by omega) hnt]
    obtain ⟨f, hf⟩ : ∃ f, maxWaitSeconds - j = f + 1 := by
      refine ⟨90 - j - 1, ?_⟩
      show 90 - j = 90 - j - 1 + 1
      omega
    rw [hf, pollLoopAux, if_pos hj, hpoll]
    dsimp only
    rw [hu]

/-- Witness for the amended C9. -/
theorem parse_error_graceful_fallback_amended_witness :
    formatJSON (.invalid "not json at all") = "not json at all" ∧
    runPoller cBadPollScript "sess-sub" =
      (PollOutcome.parseFailed "json: cannot unmarshal value into poll response struct", 1) := by
  have h := parse_error_graceful_fallback_amended cBadPollScript "sess-sub"
  refine ⟨h.1 "not json at all", ?_⟩
  exact (h.2 0 (.valid (.arr []))
    "json: cannot unmarshal value into poll response struct"
    (by intro k hk; exact absurd hk (Nat.not_lt_zero k)) (by decide) rfl rfl).1
